import Mathlib

/-
Verification of the gore REPL core (hyangah/gore): the incremental program
builder (session.Eval, evalExpr/evalStmt, store/restoreMainBody,
includeFile/includeFiles/includePackage/importFile) and the continuation
line editor (ContLiner.countDepth, Reindent, promptString, Accepted, Clear).

The Go front-end (go/parser, text/scanner), the execution capability
(`go run`) and the filesystem are external collaborators: their outcomes on
one evaluation cycle are passed in explicitly (parse results, exit status,
read/write success flags).  Syntax trees are embedded as small inductive
types carrying exactly the structure the session code inspects.
-/

set_option autoImplicit false

namespace Gore

/-- Expression nodes, as much of `go/ast.Expr` as the session inspects:
identifiers are distinguished (isNamedIdent checks them); every other
expression shape is opaque. -/
inductive Expr where
  | ident (name : String)
  | otherExpr (tag : Nat)
deriving DecidableEq, Repr

/-- Statement nodes, as much of `go/ast.Stmt` as the session inspects:
assignment/define statements expose their Lhs and Rhs expression lists;
`exprStmtCall fn args` is an `ast.ExprStmt` whose X is a `CallExpr` with
function identifier `fn` and arguments `args` (the shape the session
synthesizes for echo statements); everything else is opaque. -/
inductive Stmt where
  | assign (lhs : List Expr) (rhs : List Expr)
  | exprStmtCall (fn : String) (args : List Expr)
  | other (tag : Nat)
deriving DecidableEq, Repr

/-- Top-level declarations of a parsed file, as much as importFile inspects:
function declarations expose their name and body statement list; all other
declarations are opaque. -/
inductive Decl where
  | funcDecl (name : String) (body : List Stmt)
  | otherDecl (tag : Nat)
deriving DecidableEq, Repr

instance : Inhabited Decl := ⟨Decl.otherDecl 0⟩

/-- Name of the auto-print helper (const printerName = "__gore_p"). -/
def printerName : String := "__gore_p"

/-- isNamedIdent reports whether expr is an *ast.Ident with the given name. -/
def isNamedIdent (expr : Expr) (name : String) : Bool :=
  match expr with
  | Expr.ident n => n == name
  | _ => false

/-- Session state (struct session): the statement list of the main function
body (mainBody.List), the checkpoint storedBodyLength, the import paths of
the program file, and the parsed trees of included external files
(extraFiles; their on-disk paths extraFilePaths are not modelled).
autoImports mirrors the AutoImports configuration flag. -/
structure Session where
  autoImports : Bool
  mainBody : List Stmt
  storedBodyLength : Nat
  imports : List String
  extraFiles : List (List Decl)
deriving DecidableEq, Repr

/-- appendStatements appends statements to the main function body. -/
def appendStatements (s : Session) (stmts : List Stmt) : Session :=
  { s with mainBody := s.mainBody ++ stmts }

/-- storeMainBody records the current length of the statements inside main. -/
def storeMainBody (s : Session) : Session :=
  { s with storedBodyLength := s.mainBody.length }

/-- restoreMainBody truncates the main body to the stored length
(mainBody.List = mainBody.List[0:storedBodyLength]). -/
def restoreMainBody (s : Session) : Session :=
  { s with mainBody := s.mainBody.take s.storedBodyLength }

/-- Statement-list transformation of evalStmt after a successful parse: if
the statement list is nonempty and its last statement is an assignment, an
echo statement calling the printer with every non-blank target is appended;
otherwise the list is returned as parsed.  (In the source the result is
then handed to appendStatements.) -/
def evalStmtCore (stmts : List Stmt) : List Stmt :=
  match stmts.getLast? with
  | some (Stmt.assign lhs _) =>
    let vs := lhs.filter (fun v => !(isNamedIdent v "_"))
    if vs.length > 0 then stmts ++ [Stmt.exprStmtCall printerName vs] else stmts
  | _ => stmts

/-- Echo statement synthesized by evalExpr for a successfully parsed bare
expression: __gore_p(expr). -/
def echoExpr (e : Expr) : Stmt := Stmt.exprStmtCall printerName [e]

/-- Outcome of parser.ParseExpr on the input (external front-end). -/
inductive ExprParse where
  | okE (e : Expr)
  | errE
deriving DecidableEq, Repr

/-- Outcome of the statement parse inside evalStmt (external front-end).
errList is a failure of type scanner.ErrorList (the only error kind
go/parser produces for syntax errors on in-memory sources); errOther is any
other failure value. -/
inductive StmtParse where
  | okS (stmts : List Stmt)
  | errList
  | errOther
deriving DecidableEq, Repr

/-- Outcome of s.Run(), i.e. of the `go run` execution capability:
success, an *exec.ExitError whose wait status carries the given exit code,
or any other failure value. -/
inductive RunResult where
  | success
  | exitStatus (code : Nat)
  | otherFailure
deriving DecidableEq, Repr

/-- Result of a directive action on the session (commands.go is not under
src/): the action may succeed, fail with a reported error, or be `:quit`
returning ErrQuit.  The transformed session is carried in each case. -/
inductive CmdResult where
  | okC (s : Session)
  | errC (s : Session)
  | quitC (s : Session)

/-- Modelled from the spec: the closed directive set of the command
dispatcher (commands.go, which holds the `commands` table, is not under
src/; the spec's directive surface lists exactly these names). -/
def commandNames : List String :=
  ["import", "print", "write", "read", "reset", "run", "doc", "help", "quit"]

/-- strings.TrimPrefix: drop the prefix if present, else return s unchanged. -/
def trimPre (s pre : String) : String :=
  if pre.data.isPrefixOf s.data then String.mk (s.data.drop pre.data.length) else s

/-- strings.TrimSpace restricted to ASCII whitespace (sufficient for the
directive arguments the session handles). -/
def trimSpaceChars (l : List Char) : List Char :=
  ((l.dropWhile (fun c => c == ' ' || c == '\t' || c == '\n' || c == '\r')).reverse.dropWhile
    (fun c => c == ' ' || c == '\t' || c == '\n' || c == '\r')).reverse

/-- Matching test of the dispatch loop in Eval for one command name:
arg := strings.TrimPrefix(in, ":"+name); the command fires when arg differs
from in and is empty or starts with a space. -/
def commandMatches (inp : String) (name : String) : Bool :=
  let arg := trimPre inp (":" ++ name)
  arg != inp && (arg == "" || arg.data.head? == some ' ')

/-- First command of the dispatch loop that matches the input, if any. -/
def dispatchCommand (inp : String) : Option String :=
  commandNames.find? (commandMatches inp)

/-- Trimmed argument handed to a matched command's action. -/
def cmdArgOf (inp name : String) : String :=
  String.mk (trimSpaceChars (trimPre inp (":" ++ name)).data)

/-- Modelled from the spec: clearQuickFix (quickfix.go is not under src/).
The spec's evaluation-cycle algorithm starts directly with Checkpoint and
gives this pass no effect on ProcedureBody, so it is the identity here. -/
def clearQuickFix (s : Session) : Session := s

/-- Modelled from the spec: doQuickFix (quickfix.go is not under src/); the
spec's cycle algorithm gives it no effect on ProcedureBody. -/
def doQuickFix (s : Session) : Session := s

/-- Outcome of the external round trip performed by Session.fixImports
(part_001:478-498): printer.Fprint renders the current file, the
external imports.Process rewrites its import list and formatting,
and parser.ParseFile reparses the result.  Each step can fail: a print
or Process failure returns before anything is assigned; a reparse
failure has already assigned the failed parse result to s.file
(carrying whatever import list that broken value has) but returns
before mainBody is reassigned.  On success the reparsed file carries a
new import list and a round-tripped main function body. -/
inductive FixResult where
  | failPrint
  | failProcess
  | failReparse (brokenImports : List String)
  | okF (newImports : List String) (newBody : List Stmt)
deriving DecidableEq, Repr

/-- Session.fixImports (part_001:478-498): render the file, run the
external imports.Process over it, reparse, and point mainBody at the new
file's main function body.  The returned error is ignored by Eval.  On
failPrint/failProcess nothing was assigned; on failReparse the file (and so
the modelled import list) is replaced by the broken parse result while
mainBody keeps its old value (the source returns before
`s.mainBody = s.mainFunc().Body`); on success imports and mainBody both
come from the reparsed file. -/
def fixImports (r : FixResult) (s : Session) : Session :=
  match r with
  | FixResult.failPrint => s
  | FixResult.failProcess => s
  | FixResult.failReparse broken => { s with imports := broken }
  | FixResult.okF newImports newBody =>
    { s with imports := newImports, mainBody := newBody }

/-- Main-body component of a fixImports outcome applied to a body: only a
successful round trip replaces the statement list. -/
def fixBody (r : FixResult) (b : List Stmt) : List Stmt :=
  match r with
  | FixResult.okF _ newBody => newBody
  | _ => b

/-- External outcomes feeding one Eval cycle: the two parse results for the
input, the action semantics of a matched directive, the result of the
fixImports round trip (used only when AutoImports is set), and the
execution result of s.Run(). -/
structure EvalDeps where
  parseExpr : ExprParse
  parseStmts : StmtParse
  runAction : String → String → Session → CmdResult
  fixResult : FixResult
  runProgram : RunResult

/-- Value of an ast.Stmt appended by evalExpr/evalStmt for this cycle, as a
function of the parse outcomes (empty when both parses fail). -/
def cycleAppended (d : EvalDeps) : List Stmt :=
  match d.parseExpr with
  | ExprParse.okE e => [echoExpr e]
  | ExprParse.errE =>
    match d.parseStmts with
    | StmtParse.okS stmts => evalStmtCore stmts
    | _ => []

/-- Error value returned by Eval: nil, ErrContinue, ErrQuit, or the error
of the failed run (also reported through errorf). -/
inductive EvalOutcome where
  | okR
  | errContinue
  | errQuit
  | runFailed (r : RunResult)
deriving DecidableEq, Repr

/-- Result of one Eval call: final session, returned error value, whether
the execution capability (s.Run at the end of Eval) was invoked, and
whether errorf reported an error. -/
structure EvalRes where
  session : Session
  outcome : EvalOutcome
  ranExecution : Bool
  reported : Bool
deriving DecidableEq, Repr

/-- Conditional fixImports application of Eval line 335-337: the pass runs
exactly when AutoImports is set, with its error ignored. -/
def applyAutoFix (d : EvalDeps) (s : Session) : Session :=
  if s.autoImports then fixImports d.fixResult s else s

/-- Tail of Eval from line 335 on: optional fixImports, doQuickFix, then
s.Run(); when the run fails as an *exec.ExitError with wait status 2 the
main body is restored; any run failure is reported and returned. -/
def evalRunStep (d : EvalDeps) (s : Session) : EvalRes :=
  let s2 := doQuickFix (applyAutoFix d s)
  match d.runProgram with
  | RunResult.success => ⟨s2, EvalOutcome.okR, true, false⟩
  | RunResult.exitStatus c =>
    let s3 := if c == 2 then restoreMainBody s2 else s2
    ⟨s3, EvalOutcome.runFailed (RunResult.exitStatus c), true, true⟩
  | RunResult.otherFailure =>
    ⟨s2, EvalOutcome.runFailed RunResult.otherFailure, true, true⟩

/-- Session.Eval for one logical input: clearQuickFix, storeMainBody, the
directive dispatch loop (a matched command short-circuits evaluation and
never reaches s.Run), then the expression/statement path: a successful
expression parse appends a single echo statement; otherwise a successful
statement parse appends the statements with a possible assignment echo; a
statement-parse failure of type scanner.ErrorList returns ErrContinue
before running; any other statement-parse failure is dropped and control
falls through to the run step. -/
def Eval (d : EvalDeps) (s0 : Session) (inp : String) : EvalRes :=
  let s := storeMainBody (clearQuickFix s0)
  match dispatchCommand inp with
  | some name =>
    match d.runAction name (cmdArgOf inp name) s with
    | CmdResult.quitC s' => ⟨s', EvalOutcome.errQuit, false, false⟩
    | CmdResult.errC s' => ⟨doQuickFix s', EvalOutcome.okR, false, true⟩
    | CmdResult.okC s' => ⟨doQuickFix s', EvalOutcome.okR, false, false⟩
  | none =>
    match d.parseExpr with
    | ExprParse.okE e => evalRunStep d (appendStatements s [echoExpr e])
    | ExprParse.errE =>
      match d.parseStmts with
      | StmtParse.okS stmts => evalRunStep d (appendStatements s (evalStmtCore stmts))
      | StmtParse.errList => ⟨s, EvalOutcome.errContinue, false, false⟩
      | StmtParse.errOther => evalRunStep d s

/-! External-file inclusion (includeFiles / includeFile / importPackages /
importFile / includePackage).  A source file is characterized by the
outcomes of the external operations performed on it: whether
ioutil.ReadFile succeeds, whether go/parser accepts the content (the same
content is parsed both by importPackages and by importFile, hence one
flag), the import paths the parsed tree carries, its top-level
declarations, and whether the temp-file creation resp. the final
create-and-write of the rewritten file succeed. -/

/-- One external golang source file, by the outcomes of the external
operations includeFile performs on it. -/
structure SrcFile where
  readOk : Bool
  parseOk : Bool
  fileImports : List String
  decls : List Decl
  tmpOk : Bool
  createOk : Bool
deriving DecidableEq, Repr

/-- Modelled from the spec: actionImport (commands.go is not under src/)
merges one import path into the program under the §3 uniqueness rule
("import paths in Program are unique"). -/
def addImport (imports : List String) (path : String) : List String :=
  if path ∈ imports then imports else imports ++ [path]

/-- State of the declaration-removal loop of importFile, with Go slice
semantics made explicit: `arr` is the backing array (its length never
changes), `len` the current slice length.  The loop ranges over the slice
header captured before any mutation, i.e. over indices 0..arr.length-1 of
the mutating backing array. -/
structure StripState where
  arr : List Decl
  len : Nat
  newMain : Option (List Stmt)
  fix : Bool
deriving Repr

/-- Backing-array content after `f.Decls = append(f.Decls[0:i], f.Decls[i+1:]...)`
on a slice of length len: positions i..len-2 shift down by one, all other
positions (including the stale tail) keep their value. -/
def shiftDown (arr : List Decl) (i len : Nat) : List Decl :=
  (List.range arr.length).map fun j =>
    if i ≤ j && j + 1 < len then arr.getD (j + 1) default else arr.getD j default

/-- Element removal of the loop body.  `f.Decls[i+1:]` panics (slice bounds
out of range) when i+1 exceeds the current length, which happens when the
loop reaches a stale duplicate past the shortened slice; none models that
panic. -/
def removeIdx (arr : List Decl) (i len : Nat) : Option (List Decl × Nat) :=
  if i + 1 > len then none else some (shiftDown arr i len, len - 1)

/-- One iteration of the removal loop at index i: a func decl named main is
removed (its body first replacing the session main body when includingMain
is set); a func decl named __gore_p is removed; anything else is kept. -/
def stripStep (includingMain : Bool) (acc : Option StripState) (i : Nat) :
    Option StripState :=
  match acc with
  | none => none
  | some st =>
    match st.arr.getD i default with
    | Decl.funcDecl name body =>
      if name == "main" then
        let st1 := if includingMain then { st with newMain := some body } else st
        match removeIdx st1.arr i st1.len with
        | none => none
        | some (arr', len') => some { st1 with arr := arr', len := len', fix := true }
      else if name == "__gore_p" then
        match removeIdx st.arr i st.len with
        | none => none
        | some (arr', len') => some { st with arr := arr', len := len', fix := true }
      else some st
    | _ => some st

/-- The removal loop of importFile over the declarations of the parsed
file, with Go range-over-mutating-slice semantics.  Returns the final
declaration list (the slice contents), the entry-procedure body captured
for includingMain (if any), and the `fix` flag; none when the loop
panics. -/
def stripDecls (includingMain : Bool) (decls : List Decl) :
    Option (List Decl × Option (List Stmt) × Bool) :=
  ((List.range decls.length).foldl (stripStep includingMain)
      (some ⟨decls, decls.length, none, false⟩)).map
    fun st => (st.arr.take st.len, st.newMain, st.fix)

/-- Outcome of including one file (or a list of files): success or an
error, each carrying the session as left behind, or a runtime panic of the
removal loop (which kills the process). -/
inductive IncOutcome where
  | ok (s : Session)
  | err (s : Session)
  | panicked
deriving DecidableEq, Repr

/-- includeFile: read the file, merge its imports into the session
(importPackages), then register the rewritten tree as an extra file
(importFile: temp file, parse, strip main/__gore_p — replacing the session
main body when includingMain — unused-import quickfix on the stripped tree,
write out, append to extraFiles).  Each failing external step aborts with
the session as mutated so far. -/
def includeFile (s : Session) (f : SrcFile) (includingMain : Bool) : IncOutcome :=
  if !f.readOk then IncOutcome.err s
  else if !f.parseOk then IncOutcome.err s
  else
    let s1 := { s with imports := f.fileImports.foldl addImport s.imports }
    if !f.tmpOk then IncOutcome.err s1
    else
      match stripDecls includingMain f.decls with
      | none => IncOutcome.panicked
      | some (decls', newMain, _fix) =>
        let s2 := match includingMain, newMain with
          | true, some body => { s1 with mainBody := body }
          | _, _ => s1
        if !f.createOk then IncOutcome.err s2
        else IncOutcome.ok { s2 with extraFiles := s2.extraFiles ++ [decls'] }

/-- includeFiles: include each file in order with includingMain = false,
returning the first failure. -/
def includeFiles (s : Session) : List SrcFile → IncOutcome
  | [] => IncOutcome.ok s
  | f :: fs =>
    match includeFile s f false with
    | IncOutcome.ok s' => includeFiles s' fs
    | IncOutcome.err s' => IncOutcome.err s'
    | IncOutcome.panicked => IncOutcome.panicked

/-- Outcome of the external package resolution (build.Import /
build.ImportDir) used by includePackage. -/
inductive PkgResolution where
  | errR
  | okR (files : List SrcFile)
deriving Repr

/-- includePackage: resolve the package's source files, then includeFiles
over them; a resolution failure aborts with the session unchanged. -/
def includePackage (s : Session) (r : PkgResolution) : IncOutcome :=
  match r with
  | PkgResolution.errR => IncOutcome.err s
  | PkgResolution.okR files => includeFiles s files

/-! The continuation line editor (ContLiner). -/

/-- Token classes as seen by the text/scanner scan inside countDepth: an
opening brace token, a closing brace token, or any other token.  Reindent
and countDepth are stated over the token stream the external scanner
produces for the buffered text. -/
inductive Tok where
  | lbrace
  | rbrace
  | other
deriving DecidableEq, Repr

/-- The scanning loop of countDepth: depth starts at 0, an opening brace
increments it, a closing brace decrements it, EOF returns it. -/
def countDepthLoop (depth : Int) : List Tok → Int
  | [] => depth
  | Tok.lbrace :: ts => countDepthLoop (depth + 1) ts
  | Tok.rbrace :: ts => countDepthLoop (depth - 1) ts
  | Tok.other :: ts => countDepthLoop depth ts

/-- ContLiner.countDepth over the token stream of the buffer. -/
def countDepth (toks : List Tok) : Int := countDepthLoop 0 toks

/-- Reference bracket matching (left-to-right): accumulates the number of
currently unmatched opening braces and the number of closing braces that
had no opening brace to match. -/
def matchLoop (u v : Nat) : List Tok → Nat × Nat
  | [] => (u, v)
  | Tok.lbrace :: ts => matchLoop (u + 1) v ts
  | Tok.rbrace :: ts => if u > 0 then matchLoop (u - 1) v ts else matchLoop u (v + 1) ts
  | Tok.other :: ts => matchLoop u v ts

/-- Number of unmatched opening braces of a token stream. -/
def unmatchedOpens (toks : List Tok) : Nat := (matchLoop 0 0 toks).1

/-- Number of unmatched closing braces of a token stream. -/
def unmatchedCloses (toks : List Tok) : Nat := (matchLoop 0 0 toks).2

/-- Whether a closing brace occurs before any opening brace. -/
def closeBeforeOpen : List Tok → Bool
  | [] => false
  | Tok.lbrace :: _ => false
  | Tok.rbrace :: _ => true
  | Tok.other :: ts => closeBeforeOpen ts

/-- ContLiner state: the accumulated buffer and the nesting depth. -/
structure ContLiner where
  buffer : String
  depth : Int
deriving DecidableEq, Repr

/-- Primary prompt (promptDefault). -/
def promptDefault : String := "gore> "

/-- Continuation prompt stem (promptContinue). -/
def promptContinue : String := "..... "

/-- Indentation unit repeated depth times after the continuation prompt. -/
def indentUnit : String := "    "

/-- ContLiner.promptString: the continuation prompt plus depth copies of
the indent unit when the buffer is nonempty, the primary prompt otherwise.
(strings.Repeat is defined for the nonnegative counts occurring here;
negative depths are clamped.) -/
def promptString (cl : ContLiner) : String :=
  if cl.buffer ≠ "" then
    promptContinue ++ String.join (List.replicate cl.depth.toNat indentUnit)
  else promptDefault

/-- ContLiner.Reindent over the token stream of the buffer: recompute the
depth (the field is updated before the sign check), and return the
unmatched-braces error exactly when the recomputed depth is negative.  The
prompt redraw on a depth decrease is a pure display effect. -/
def Reindent (cl : ContLiner) (toks : List Tok) : ContLiner × Bool :=
  let d := countDepth toks
  if d < 0 then ({ cl with depth := d }, true) else ({ cl with depth := d }, false)

/-- ContLiner.Accepted: append the buffer to history (external) and clear
the buffer; the depth field is left as it is. -/
def Accepted (cl : ContLiner) : ContLiner := { cl with buffer := "" }

/-- ContLiner.Clear: reset buffer and depth. -/
def Clear (_cl : ContLiner) : ContLiner := { buffer := "", depth := 0 }

/-! Concrete sample data used by witnesses and counterexamples. -/

/-- Fresh session with no imports, no extra files, empty main body. -/
def sEmpty : Session := ⟨false, [], 0, [], []⟩

/-- Session whose main body already holds one statement. -/
def sW : Session := ⟨false, [Stmt.other 9], 1, [], []⟩

/-- Session with AutoImports set whose main body already holds one
statement. -/
def sAuto : Session := ⟨true, [Stmt.other 9], 1, [], []⟩

/-- Deps of a cycle whose input parses as an expression, whose fixImports
round trip succeeds preserving the two statements of the cycle, and whose
run exits with the fatal sentinel status 2. -/
def dFatal : EvalDeps :=
  ⟨ExprParse.okE (Expr.otherExpr 0), StmtParse.errList,
    fun _ _ s => CmdResult.okC s,
    FixResult.okF ["fmt"] [Stmt.other 9, echoExpr (Expr.otherExpr 0)],
    RunResult.exitStatus 2⟩

/-- Deps of a cycle whose input parses as an expression, whose fixImports
round trip succeeds preserving the two statements of the cycle, and whose
run exits with status 1 (a non-sentinel failure). -/
def dStatus1 : EvalDeps :=
  ⟨ExprParse.okE (Expr.otherExpr 0), StmtParse.errList,
    fun _ _ s => CmdResult.okC s,
    FixResult.okF ["fmt"] [Stmt.other 9, echoExpr (Expr.otherExpr 0)],
    RunResult.exitStatus 1⟩

/-- Deps of a cycle whose input parses neither as an expression nor as
statements, the statement failure being a scanner.ErrorList (used for the
unknown-directive input `:foo`). -/
def dIncomplete : EvalDeps :=
  ⟨ExprParse.errE, StmtParse.errList, fun _ _ s => CmdResult.okC s,
    FixResult.failPrint, RunResult.success⟩

/-- Deps of a cycle on a malformed code input such as `x~~`: both parses
fail, the statement failure being the scanner.ErrorList go/parser produces
for every in-memory syntax error. -/
def dSyntaxErr : EvalDeps :=
  ⟨ExprParse.errE, StmtParse.errList, fun _ _ s => CmdResult.okC s,
    FixResult.failPrint, RunResult.success⟩

/-! Helper lemmas about the evaluation cycle. -/

lemma Eval_command_not_run (d : EvalDeps) (s0 : Session) (inp : String) (name : String)
    (hcmd : dispatchCommand inp = some name) :
    (Eval d s0 inp).ranExecution = false := by
  unfold Eval clearQuickFix
  rw [hcmd]
  dsimp only
  generalize d.runAction name (cmdArgOf inp name) (storeMainBody s0) = r
  cases r <;> rfl

lemma fixImports_mainBody (r : FixResult) (s : Session) :
    (fixImports r s).mainBody = fixBody r s.mainBody := by
  cases r <;> rfl

lemma fixImports_stored (r : FixResult) (s : Session) :
    (fixImports r s).storedBodyLength = s.storedBodyLength := by
  cases r <;> rfl

lemma applyAutoFix_stored (d : EvalDeps) (s : Session) :
    (applyAutoFix d s).storedBodyLength = s.storedBodyLength := by
  unfold applyAutoFix
  by_cases hA : s.autoImports
  · rw [if_pos hA, fixImports_stored]
  · rw [if_neg hA]

/-- Main body reaching the run step of a cycle over s0: the appended list,
provided the fixImports round trip — applied only when AutoImports is set —
preserved it. -/
lemma applyAutoFix_cycle_mainBody (d : EvalDeps) (s0 : Session)
    (hfix : s0.autoImports = true →
      fixBody d.fixResult (s0.mainBody ++ cycleAppended d)
        = s0.mainBody ++ cycleAppended d) :
    (applyAutoFix d (appendStatements (storeMainBody s0) (cycleAppended d))).mainBody
      = s0.mainBody ++ cycleAppended d := by
  unfold applyAutoFix
  by_cases hA : (appendStatements (storeMainBody s0) (cycleAppended d)).autoImports
  · rw [if_pos hA, fixImports_mainBody]
    exact hfix hA
  · rw [if_neg hA]
    rfl

lemma evalRunStep_session (d : EvalDeps) (s : Session) :
    (evalRunStep d s).session =
      if d.runProgram = RunResult.exitStatus 2 then restoreMainBody (applyAutoFix d s)
      else applyAutoFix d s := by
  unfold evalRunStep
  cases hr : d.runProgram with
  | success => simp [doQuickFix, hr]
  | exitStatus c =>
    by_cases hc : c = 2
    · subst hc; simp [doQuickFix]
    · simp [doQuickFix, hc, Ne.symm hc]
  | otherFailure => simp [doQuickFix, hr]

lemma evalRunStep_ranExecution (d : EvalDeps) (s : Session) :
    (evalRunStep d s).ranExecution = true := by
  unfold evalRunStep
  cases d.runProgram <;> simp [doQuickFix]

lemma evalRunStep_outcome (d : EvalDeps) (s : Session) :
    (evalRunStep d s).outcome =
      match d.runProgram with
      | RunResult.success => EvalOutcome.okR
      | r => EvalOutcome.runFailed r := by
  unfold evalRunStep
  cases d.runProgram <;> simp [doQuickFix]

lemma restoreMainBody_mainBody (s : Session) :
    (restoreMainBody s).mainBody = s.mainBody.take s.storedBodyLength := rfl

/-- Non-command evaluation reaches the run step with exactly cycleAppended
appended, or stops with ErrContinue. -/
lemma Eval_no_command (d : EvalDeps) (s0 : Session) (inp : String)
    (hcmd : dispatchCommand inp = none) :
    Eval d s0 inp =
      (if d.parseExpr = ExprParse.errE ∧ d.parseStmts = StmtParse.errList then
        ⟨storeMainBody s0, EvalOutcome.errContinue, false, false⟩
      else
        evalRunStep d (appendStatements (storeMainBody s0) (cycleAppended d))) := by
  unfold Eval clearQuickFix
  rw [hcmd]
  cases hpe : d.parseExpr with
  | okE e => simp [hpe, cycleAppended]
  | errE =>
    cases hps : d.parseStmts with
    | okS stmts => simp [hpe, hps, cycleAppended]
    | errList => simp [hpe, hps]
    | errOther =>
      simp [hpe, hps, cycleAppended, appendStatements]

/-- Claim C1: for every evaluation cycle whose execution invocation exits
with the fatal sentinel status 2, restoreMainBody truncates the main body
exactly to the checkpoint recorded by storeMainBody at the start of Eval:
after Eval returns, the main body (and hence its length) equals its value
immediately before the cycle began.  On the AutoImports path this needs the
external fixImports round trip (goimports plus a print-and-reparse) to have
preserved the cycle's statement list, which is that capability's contract;
with AutoImports off the hypothesis is vacuous. -/
theorem claim1_fatal_status_restores_checkpoint (d : EvalDeps) (s0 : Session) (inp : String)
    (hran : (Eval d s0 inp).ranExecution = true)
    (hst : d.runProgram = RunResult.exitStatus 2)
    (hfix : s0.autoImports = true →
      fixBody d.fixResult (s0.mainBody ++ cycleAppended d)
        = s0.mainBody ++ cycleAppended d) :
    (Eval d s0 inp).session.mainBody = s0.mainBody ∧
    (Eval d s0 inp).session.mainBody.length = s0.mainBody.length := by
  suffices h : (Eval d s0 inp).session.mainBody = s0.mainBody by
    exact ⟨h, by rw [h]⟩
  cases hcmd : dispatchCommand inp with
  | some name =>
    rw [Eval_command_not_run d s0 inp name hcmd] at hran
    exact absurd hran (by simp)
  | none =>
    rw [Eval_no_command d s0 inp hcmd] at hran ⊢
    by_cases hh : d.parseExpr = ExprParse.errE ∧ d.parseStmts = StmtParse.errList
    · simp [hh] at hran
    · simp only [hh, if_false]
      rw [evalRunStep_session, if_pos hst, restoreMainBody_mainBody,
        applyAutoFix_cycle_mainBody d s0 hfix, applyAutoFix_stored]
      have hlen : (appendStatements (storeMainBody s0) (cycleAppended d)).storedBodyLength
          = s0.mainBody.length := rfl
      rw [hlen]
      exact List.take_left s0.mainBody (cycleAppended d)

/-- Claim C1 witness: a concrete fatal cycle on an AutoImports session
holding one statement, with a body-preserving fixImports outcome, is
restored to that statement list. -/
theorem claim1_fatal_status_restores_checkpoint_witness :
    (Eval dFatal sAuto "1+1").session.mainBody = sAuto.mainBody ∧
    (Eval dFatal sAuto "1+1").session.mainBody.length = sAuto.mainBody.length :=
  claim1_fatal_status_restores_checkpoint dFatal sAuto "1+1" (by decide) rfl (by decide)

/-- Claim C8: for every evaluation cycle whose execution invocation fails
with any result other than the fatal sentinel status 2 (a different exit
status or a non-ExitError failure), restoreMainBody is not called: the main
body keeps the statements appended during the cycle, and the run error is
returned.  As for C1, the AutoImports path needs the external fixImports
round trip to have preserved the cycle's statement list. -/
theorem claim8_nonfatal_failure_keeps_appended (d : EvalDeps) (s0 : Session) (inp : String)
    (hran : (Eval d s0 inp).ranExecution = true)
    (hs : d.runProgram ≠ RunResult.success)
    (h2 : d.runProgram ≠ RunResult.exitStatus 2)
    (hfix : s0.autoImports = true →
      fixBody d.fixResult (s0.mainBody ++ cycleAppended d)
        = s0.mainBody ++ cycleAppended d) :
    (Eval d s0 inp).session.mainBody = s0.mainBody ++ cycleAppended d ∧
    (Eval d s0 inp).session.mainBody.length
      = s0.mainBody.length + (cycleAppended d).length ∧
    (Eval d s0 inp).outcome = EvalOutcome.runFailed d.runProgram := by
  cases hcmd : dispatchCommand inp with
  | some name =>
    rw [Eval_command_not_run d s0 inp name hcmd] at hran
    exact absurd hran (by simp)
  | none =>
    rw [Eval_no_command d s0 inp hcmd] at hran ⊢
    by_cases hh : d.parseExpr = ExprParse.errE ∧ d.parseStmts = StmtParse.errList
    · simp [hh] at hran
    · simp only [hh, if_false]
      have hmb : (evalRunStep d
          (appendStatements (storeMainBody s0) (cycleAppended d))).session.mainBody
          = s0.mainBody ++ cycleAppended d := by
        rw [evalRunStep_session, if_neg h2]
        exact applyAutoFix_cycle_mainBody d s0 hfix
      refine ⟨hmb, ?_, ?_⟩
      · rw [hmb]
        simp
      · rw [evalRunStep_outcome]
        cases hr : d.runProgram with
        | success => exact absurd hr hs
        | exitStatus c => rfl
        | otherFailure => rfl

/-- Claim C8 witness: a concrete AutoImports cycle failing with exit status
1, with a body-preserving fixImports outcome, keeps the appended echo
statement. -/
theorem claim8_nonfatal_failure_keeps_appended_witness :
    (Eval dStatus1 sAuto "1+1").session.mainBody
      = sAuto.mainBody ++ cycleAppended dStatus1 ∧
    (Eval dStatus1 sAuto "1+1").outcome
      = EvalOutcome.runFailed (RunResult.exitStatus 1) :=
  ⟨(claim8_nonfatal_failure_keeps_appended dStatus1 sAuto "1+1" (by decide)
      (by decide) (by decide) (by decide)).1,
    (claim8_nonfatal_failure_keeps_appended dStatus1 sAuto "1+1" (by decide)
      (by decide) (by decide) (by decide)).2.2⟩

/-- Claim C2 (amended): the code has no report-and-rollback path for
malformed input.  go/parser returns a scanner.ErrorList for every syntax
error on an in-memory source, and Eval treats every ErrorList failure as
incomplete: it returns ErrContinue with the parse error unreported, makes
no rollback call (the session is unchanged apart from the checkpoint
field), and does not invoke the execution capability — the editor keeps
accumulating instead of the cycle ending with a report. -/
theorem claim2_malformed_treated_as_incomplete (d : EvalDeps) (s0 : Session) (inp : String)
    (hcmd : dispatchCommand inp = none)
    (hex : d.parseExpr = ExprParse.errE)
    (hst : d.parseStmts = StmtParse.errList) :
    (Eval d s0 inp).outcome = EvalOutcome.errContinue ∧
    (Eval d s0 inp).reported = false ∧
    (Eval d s0 inp).ranExecution = false ∧
    (Eval d s0 inp).session = storeMainBody s0 := by
  rw [Eval_no_command d s0 inp hcmd]
  simp [hex, hst]

/-- Claim C2 counterexample: `x~~` is malformed (a syntax error with no
unmatched delimiters), its statement parse fails with the scanner.ErrorList
go/parser produces for every in-memory syntax error, and Eval neither
reports the error nor ends the cycle — it returns the continue signal,
contradicting the claimed report-and-rollback ending. -/
theorem claim2_counterexample :
    (Eval dSyntaxErr sW "x~~").reported = false ∧
    (Eval dSyntaxErr sW "x~~").outcome = EvalOutcome.errContinue := by
  decide

/-- Claim C2 witness: the amended behavior at the concrete malformed input
`x~~`. -/
theorem claim2_malformed_treated_as_incomplete_witness :
    (Eval dSyntaxErr sW "x~~").outcome = EvalOutcome.errContinue ∧
    (Eval dSyntaxErr sW "x~~").reported = false ∧
    (Eval dSyntaxErr sW "x~~").ranExecution = false ∧
    (Eval dSyntaxErr sW "x~~").session = storeMainBody sW :=
  claim2_malformed_treated_as_incomplete dSyntaxErr sW "x~~" (by decide) rfl rfl

/-- Claim C7 (amended): a colon-led input matching no directive is not
reported as an error; it falls through to the expression/statement path,
whose two parse failures (the statement one an ErrorList) make Eval return
ErrContinue: nothing is appended to the main body, imports and external
units are unchanged, and the execution capability is not invoked. -/
theorem claim7_unknown_directive_continues (d : EvalDeps) (s0 : Session) (inp : String)
    (_hcolon : inp.data.head? = some ':')
    (hcmd : dispatchCommand inp = none)
    (hex : d.parseExpr = ExprParse.errE)
    (hst : d.parseStmts = StmtParse.errList) :
    (Eval d s0 inp).outcome = EvalOutcome.errContinue ∧
    (Eval d s0 inp).ranExecution = false ∧
    (Eval d s0 inp).reported = false ∧
    (Eval d s0 inp).session.mainBody = s0.mainBody ∧
    (Eval d s0 inp).session.imports = s0.imports ∧
    (Eval d s0 inp).session.extraFiles = s0.extraFiles := by
  rw [Eval_no_command d s0 inp hcmd]
  simp [hex, hst, storeMainBody]

/-- Claim C7 counterexample: the unknown directive `:foo` is not reported
as an error — Eval returns the continue signal instead, leaving the editor
accumulating. -/
theorem claim7_counterexample :
    dispatchCommand ":foo" = none ∧
    (Eval dIncomplete sW ":foo").reported = false ∧
    (Eval dIncomplete sW ":foo").outcome = EvalOutcome.errContinue := by
  decide

/-- Claim C7 witness: the amended behavior at the concrete input `:foo`. -/
theorem claim7_unknown_directive_continues_witness :
    (Eval dIncomplete sW ":foo").outcome = EvalOutcome.errContinue ∧
    (Eval dIncomplete sW ":foo").ranExecution = false ∧
    (Eval dIncomplete sW ":foo").reported = false ∧
    (Eval dIncomplete sW ":foo").session.mainBody = sW.mainBody ∧
    (Eval dIncomplete sW ":foo").session.imports = sW.imports ∧
    (Eval dIncomplete sW ":foo").session.extraFiles = sW.extraFiles :=
  claim7_unknown_directive_continues dIncomplete sW ":foo" rfl (by decide) rfl rfl

/-- Claim C5: evaluating the parsed form of `x := 1` appends exactly two
statements to the main body — the assignment followed by an echo calling
the auto-print helper on `x`; evaluating the parsed form of `x, _ := f()`
appends the assignment followed by an echo whose arguments name only `x`,
the blank target being omitted. -/
theorem claim5_assignment_echo (s : Session) (rhs rhs2 : List Expr) :
    (appendStatements s (evalStmtCore [Stmt.assign [Expr.ident "x"] rhs])).mainBody
      = s.mainBody ++ [Stmt.assign [Expr.ident "x"] rhs,
          Stmt.exprStmtCall printerName [Expr.ident "x"]] ∧
    (appendStatements s
        (evalStmtCore [Stmt.assign [Expr.ident "x", Expr.ident "_"] rhs2])).mainBody
      = s.mainBody ++ [Stmt.assign [Expr.ident "x", Expr.ident "_"] rhs2,
          Stmt.exprStmtCall printerName [Expr.ident "x"]] := by
  constructor <;> rfl

/-- Claim C9: when the last parsed statement is an assignment all of whose
targets are the blank identifier, evalStmt synthesizes no echo statement:
only the original statements are appended. -/
theorem claim9_all_blank_no_echo (stmts : List Stmt) (lhs rhs : List Expr)
    (hlast : stmts.getLast? = some (Stmt.assign lhs rhs))
    (hblank : ∀ e ∈ lhs, isNamedIdent e "_" = true) :
    evalStmtCore stmts = stmts ∧
    ∀ s : Session, (appendStatements s (evalStmtCore stmts)).mainBody
      = s.mainBody ++ stmts := by
  have hfil : lhs.filter (fun v => !(isNamedIdent v "_")) = [] := by
    refine List.filter_eq_nil_iff.mpr ?_
    intro a ha
    simp [hblank a ha]
  have hcore : evalStmtCore stmts = stmts := by
    unfold evalStmtCore
    rw [hlast]
    simp [hfil]
  exact ⟨hcore, fun s => by rw [hcore]; rfl⟩

/-- Claim C9 witness: the input `_ = f()` (a single assignment whose only
target is blank) is appended without an echo. -/
theorem claim9_all_blank_no_echo_witness :
    evalStmtCore [Stmt.assign [Expr.ident "_"] [Expr.otherExpr 3]]
      = [Stmt.assign [Expr.ident "_"] [Expr.otherExpr 3]] :=
  (claim9_all_blank_no_echo [Stmt.assign [Expr.ident "_"] [Expr.otherExpr 3]]
    [Expr.ident "_"] [Expr.otherExpr 3] (by decide) (by decide)).1

/-! The continuation prompt. -/

lemma promptContinue_append_ne (x : String) : promptContinue ++ x ≠ promptDefault := by
  intro h
  obtain ⟨d⟩ := x
  have h2 : promptContinue.data ++ d = promptDefault.data := congrArg String.data h
  have h3 : promptContinue.data = ['.', '.', '.', '.', '.', ' '] := rfl
  have h4 : promptDefault.data = ['g', 'o', 'r', 'e', '>', ' '] := rfl
  rw [h3, h4] at h2
  injection h2 with h5 _
  exact absurd h5 (by decide)

/-- Claim C10: promptString yields the primary prompt exactly when the
buffer is empty, independently of depth; Accepted clears the buffer but
leaves the depth as it was (so the next prompt is the primary prompt even
if a nonzero depth is left behind), and only Clear resets the depth to 0. -/
theorem claim10_prompt_depends_only_on_buffer (cl : ContLiner) :
    (promptString cl = promptDefault ↔ cl.buffer = "") ∧
    promptString (Accepted cl) = promptDefault ∧
    (Accepted cl).buffer = "" ∧
    (Accepted cl).depth = cl.depth ∧
    (Clear cl).buffer = "" ∧
    (Clear cl).depth = 0 := by
  refine ⟨?_, ?_, rfl, rfl, rfl, rfl⟩
  · by_cases hb : cl.buffer = ""
    · simp [promptString, hb]
    · have hps : promptString cl
          = promptContinue ++ String.join (List.replicate cl.depth.toNat indentUnit) := by
        simp [promptString, hb]
      rw [hps]
      constructor
      · intro h
        exact absurd h (promptContinue_append_ne _)
      · intro h
        exact absurd h hb
  · simp [promptString, Accepted]

/-! Depth counting of the continuation editor. -/

lemma countDepthLoop_matchLoop : ∀ (ts : List Tok) (u v : Nat) (d : Int),
    d = (u : Int) - (v : Int) →
    countDepthLoop d ts = ((matchLoop u v ts).1 : Int) - ((matchLoop u v ts).2 : Int)
  | [], u, v, d, h => by simp [countDepthLoop, matchLoop, h]
  | Tok.lbrace :: ts, u, v, d, h => by
    simp only [countDepthLoop, matchLoop]
    exact countDepthLoop_matchLoop ts (u + 1) v (d + 1) (by omega)
  | Tok.rbrace :: ts, u, v, d, h => by
    simp only [countDepthLoop, matchLoop]
    by_cases hu : u > 0
    · rw [if_pos hu]
      exact countDepthLoop_matchLoop ts (u - 1) v (d - 1) (by omega)
    · rw [if_neg hu]
      exact countDepthLoop_matchLoop ts u (v + 1) (d - 1) (by omega)
  | Tok.other :: ts, u, v, d, h => by
    simp only [countDepthLoop, matchLoop]
    exact countDepthLoop_matchLoop ts u v d h

/-- Claim C3 (amended): the recomputed depth equals the number of unmatched
opening braces minus the number of unmatched closing braces of the buffered
text — hence k for a text with k unmatched opens and no unmatched closes,
and 0 for balanced text — and Reindent stores that depth and returns the
unmatched-braces error exactly when it is negative (closes outnumbering
opens), which a closing brace merely preceding an opening one does not
imply. -/
theorem claim3_depth_formula (toks : List Tok) (cl : ContLiner) :
    countDepth toks
      = ((unmatchedOpens toks : Int) - (unmatchedCloses toks : Int)) ∧
    (Reindent cl toks).1.depth = countDepth toks ∧
    ((Reindent cl toks).2 = true ↔ countDepth toks < 0) := by
  refine ⟨?_, ?_, ?_⟩
  · have h := countDepthLoop_matchLoop toks 0 0 0 (by omega)
    simpa [countDepth, unmatchedOpens, unmatchedCloses] using h
  · unfold Reindent
    by_cases h : countDepth toks < 0 <;> simp [h]
  · unfold Reindent
    by_cases h : countDepth toks < 0 <;> simp [h]

/-- Claim C3 counterexample: the token stream of `}{` has one unmatched
opening brace and a closing brace preceding any opening one, yet the
computed depth is 0, not 1 and not negative, and Reindent returns no
error. -/
theorem claim3_counterexample :
    closeBeforeOpen [Tok.rbrace, Tok.lbrace] = true ∧
    unmatchedOpens [Tok.rbrace, Tok.lbrace] = 1 ∧
    unmatchedCloses [Tok.rbrace, Tok.lbrace] = 1 ∧
    countDepth [Tok.rbrace, Tok.lbrace] = 0 ∧
    ¬countDepth [Tok.rbrace, Tok.lbrace] < 0 ∧
    (Reindent ⟨"\x7d\x7b", 0⟩ [Tok.rbrace, Tok.lbrace]).2 = false := by
  refine ⟨rfl, rfl, rfl, rfl, by decide, rfl⟩

/-! External-file inclusion claims. -/

/-- Source file that reads, parses and writes cleanly, imports "fmt" and
declares one non-function declaration. -/
def fGood : SrcFile := ⟨true, true, ["fmt"], [Decl.otherDecl 7], true, true⟩

/-- Source file whose read fails. -/
def fBad : SrcFile := ⟨false, true, [], [], true, true⟩

/-- Session state after including fGood into sEmpty. -/
def sAfterGood : Session := ⟨false, [], 0, ["fmt"], [[Decl.otherDecl 7]]⟩

/-- Source file declaring func main, then func __gore_p, then another
declaration, with all external steps succeeding. -/
def fMerge : SrcFile :=
  ⟨true, true, [],
    [Decl.funcDecl "main" [Stmt.other 1], Decl.funcDecl "__gore_p" [], Decl.otherDecl 0],
    true, true⟩

lemma includeFile_false_ok_mainBody (s s' : Session) (f : SrcFile)
    (h : includeFile s f false = IncOutcome.ok s') : s'.mainBody = s.mainBody := by
  unfold includeFile at h
  by_cases hr : f.readOk <;> simp [hr] at h
  by_cases hp : f.parseOk <;> simp [hp] at h
  by_cases ht : f.tmpOk <;> simp [ht] at h
  cases hs : stripDecls false f.decls with
  | none => rw [hs] at h; exact absurd h (by simp)
  | some res =>
    rw [hs] at h
    obtain ⟨decls', newMain, fix⟩ := res
    by_cases hc : f.createOk <;> simp [hc] at h
    rw [← h]

lemma includeFile_false_err_mainBody (s s' : Session) (f : SrcFile)
    (h : includeFile s f false = IncOutcome.err s') : s'.mainBody = s.mainBody := by
  unfold includeFile at h
  by_cases hr : f.readOk <;> simp [hr] at h
  · by_cases hp : f.parseOk <;> simp [hp] at h
    · by_cases ht : f.tmpOk <;> simp [ht] at h
      · cases hs : stripDecls false f.decls with
        | none => rw [hs] at h; exact absurd h (by simp)
        | some res =>
          rw [hs] at h
          obtain ⟨decls', newMain, fix⟩ := res
          by_cases hc : f.createOk <;> simp [hc] at h
          rw [← h]
      · rw [← h]
    · rw [← h]
  · rw [← h]

/-- Claim C4 (amended): includePackage/includeFiles stops at the first file
whose inclusion fails and returns its error, leaving the main body
untouched — but imports merged and external units registered for files
processed before the failing one are retained; the operation is
prefix-preserving, not all-or-nothing.  (A package-resolution failure does
leave the session fully unchanged.) -/
theorem claim4_first_failure_keeps_prior_units (s s1 s2 : Session)
    (f1 f2 : SrcFile) (fs : List SrcFile)
    (h1 : includeFile s f1 false = IncOutcome.ok s1)
    (h2 : includeFile s1 f2 false = IncOutcome.err s2) :
    includeFiles s (f1 :: f2 :: fs) = IncOutcome.err s2 ∧
    includePackage s (PkgResolution.okR (f1 :: f2 :: fs)) = IncOutcome.err s2 ∧
    includePackage s PkgResolution.errR = IncOutcome.err s ∧
    s1.mainBody = s.mainBody ∧ s2.mainBody = s.mainBody := by
  have hfs : includeFiles s (f1 :: f2 :: fs) = IncOutcome.err s2 := by
    unfold includeFiles
    rw [h1]
    unfold includeFiles
    rw [h2]
  have hm1 := includeFile_false_ok_mainBody s s1 f1 h1
  have hm2 := includeFile_false_err_mainBody s1 s2 f2 h2
  exact ⟨hfs, by unfold includePackage; exact hfs, rfl, hm1, by rw [hm2, hm1]⟩

/-- Claim C4 counterexample: including the two-file list [fGood, fBad]
fails as a whole, yet the program is not left unchanged — fGood's import
has been merged and its unit registered. -/
theorem claim4_counterexample :
    includePackage sEmpty (PkgResolution.okR [fGood, fBad]) = IncOutcome.err sAfterGood ∧
    sAfterGood.imports = ["fmt"] ∧
    sAfterGood.extraFiles = [[Decl.otherDecl 7]] ∧
    sAfterGood ≠ sEmpty := by
  refine ⟨by decide, rfl, rfl, by decide⟩

/-- Claim C4 witness: the amended statement at the concrete pair
[fGood, fBad]. -/
theorem claim4_first_failure_keeps_prior_units_witness :
    includeFiles sEmpty [fGood, fBad] = IncOutcome.err sAfterGood ∧
    sAfterGood.mainBody = sEmpty.mainBody :=
  ⟨(claim4_first_failure_keeps_prior_units sEmpty sAfterGood sAfterGood fGood fBad []
      (by decide) (by decide)).1,
    (claim4_first_failure_keeps_prior_units sEmpty sAfterGood sAfterGood fGood fBad []
      (by decide) (by decide)).2.2.2.1⟩

/-- Claim C6: the declaration-removal loop of importFile removes slice
elements in place while ranging over the captured slice header, so it skips
the declaration immediately following a removed one: in a file declaring
func main directly followed by func __gore_p, the helper declaration
survives the strip and is registered with the external unit (while the
entry-procedure body does replace the session main body); and when the
second removable declaration is the file's last one, re-examining its stale
duplicate panics (slice bounds out of range).  This contradicts the claimed
removal of both declarations for every arrangement. -/
theorem claim6_strip_skips_adjacent_decl :
    stripDecls true fMerge.decls
      = some ([Decl.funcDecl "__gore_p" [], Decl.otherDecl 0], some [Stmt.other 1], true) ∧
    Decl.funcDecl "__gore_p" [] ∈ [Decl.funcDecl "__gore_p" [], Decl.otherDecl 0] ∧
    includeFile sEmpty fMerge true
      = IncOutcome.ok
          ⟨false, [Stmt.other 1], 0, [],
            [[Decl.funcDecl "__gore_p" [], Decl.otherDecl 0]]⟩ ∧
    stripDecls false [Decl.funcDecl "main" [], Decl.funcDecl "__gore_p" []] = none := by
  refine ⟨by decide, by decide, by decide, by decide⟩

end Gore
